import Mathlib

/-!
Verification development for the `cdn-proxy` reverse proxy (`src/main.go`).

The proxy rewrites inbound request paths into backend object keys
(`proxy.Director`), post-processes backend responses (`proxy.ModifyResponse`:
XML metadata scrubbing and `Content-Disposition` annotation), and resolves a
display audio filename through a cache-aside lookup (`getAudioFilename`).

Modelling conventions:
* A Go `string`/byte slice is modelled as `Str := List Char`, one `Char` per
  byte (all bytes the program inspects are ASCII).
* `url.Values` (the parsed query string) is modelled as an association list of
  key/value pairs in parse order; `Encode` is modelled by a stable sort on the
  key, matching Go's sorted-key serialisation, with no re-escaping (we stay at
  the decoded level).
* `http.Header` is modelled as an association list with map semantics for
  `Set`/`Get` on the canonical keys the program uses.
* External collaborators (Valkey/Redis cache, Postgres, `json.Unmarshal`) are
  modelled at their interface boundary as components of an `Env` record; the
  observable effects the program can perform on them (durable-store query,
  cache writes, log lines) are returned explicitly by the model.
-/

namespace CdnProxy

/-- A Go string viewed as its list of bytes (here: ASCII characters). -/
abbrev Str := List Char

/-- Go `strings.HasPrefix(s, p)`. -/
def goHasPfx : Str → Str → Bool
  | _, [] => true
  | [], _ :: _ => false
  | c :: s, p :: ps => if c = p then goHasPfx s ps else false

/-- Go `strings.TrimPrefix(s, p)`. -/
def goTrimPfx (s p : Str) : Str :=
  if goHasPfx s p then s.drop p.length else s

/-- Go `strings.HasSuffix(s, t)` (via the reversed strings). -/
def goHasSuffix (s t : Str) : Bool :=
  goHasPfx s.reverse t.reverse

/-- Go `strings.TrimSuffix(s, t)`. -/
def goTrimSuffix (s t : Str) : Str :=
  if goHasSuffix s t then s.take (s.length - t.length) else s

/-- Go `strings.Contains(s, sub)`. -/
def goContains : Str → Str → Bool
  | [], sub => goHasPfx [] sub
  | c :: t, sub => goHasPfx (c :: t) sub || goContains t sub

/-- Split a string at its first `'/'`, when it has one. -/
def splitFirstSlash : Str → Option (Str × Str)
  | [] => none
  | c :: rest =>
    if c = '/' then some ([], rest)
    else
      match splitFirstSlash rest with
      | some (a, b) => some (c :: a, b)
      | none => none

/-- Go `strings.SplitN(s, "/", 2)`: at most two pieces, cut at the first `'/'`. -/
def splitN2 (s : Str) : List Str :=
  match splitFirstSlash s with
  | some (a, b) => [a, b]
  | none => [s]

/-- Helper for `goExt`: consumes the reversed string, accumulating the
characters already passed (which come back out in original order). -/
def goExtAux : Str → Str → Str
  | [], _ => []
  | c :: rest, acc =>
    if c = '/' then []
    else if c = '.' then c :: acc
    else goExtAux rest (c :: acc)

/-- Go `filepath.Ext(path)`: the suffix starting at the last `'.'` of the final
path element, empty when that element has no dot. -/
def goExt (s : Str) : Str :=
  goExtAux s.reverse []

/-- Go `strconv.Itoa` for naturals, fuelled (the fuel `n + 1` always suffices:
each step divides by ten). -/
def natToStrAux : Nat → Nat → Str → Str
  | 0, _, acc => acc
  | f + 1, n, acc =>
    let d := Char.ofNat (48 + n % 10)
    if n < 10 then d :: acc else natToStrAux f (n / 10) (d :: acc)

/-- Decimal rendering of a natural number. -/
def natToStr (n : Nat) : Str :=
  natToStrAux (n + 1) n []

/-! ### Query strings (`url.Values`) -/

/-- Parsed query string: key/value pairs in parse order (duplicates allowed). -/
abbrev Query := List (Str × Str)

/-- `url.Values.Get`: first value of the key, `""` when absent. -/
def qGet : Query → Str → Str
  | [], _ => []
  | (k', v) :: q, k => if k' = k then v else qGet q k

/-- `url.Values.Del`: remove every pair with the key. -/
def qDel : Query → Str → Query
  | [], _ => []
  | (k', v) :: q, k => if k' = k then qDel q k else (k', v) :: qDel q k

/-- Strict lexicographic (byte) order on strings, as Go sorts query keys. -/
def strLt : Str → Str → Bool
  | [], [] => false
  | [], _ :: _ => true
  | _ :: _, [] => false
  | a :: as, b :: bs => if a < b then true else if b < a then false else strLt as bs

/-- Stable insertion by key order (equal keys keep their relative order). -/
def qIns (p : Str × Str) : Query → Query
  | [] => [p]
  | x :: xs => if strLt p.1 x.1 then p :: x :: xs else x :: qIns p xs

/-- `url.Values.Encode`'s observable reordering: a stable sort by key, which
reproduces Go's sorted-key, per-key-in-parse-order serialisation. -/
def qSortQ : Query → Query
  | [] => []
  | p :: ps => qIns p (qSortQ ps)

/-! ### The Director (request rewriting) -/

/-- The slice of `url.URL` the Director reads and writes. -/
structure URL where
  scheme : Str
  host : Str
  path : Str
  query : Query
deriving DecidableEq

/-- Backend target derived from `MINIO_ENDPOINT`/`MINIO_BUCKET` (the parsed
target URL's path is `"/" ++ bucket` and it carries no query). -/
structure Target where
  scheme : Str
  host : Str
  bucket : Str

/-- `singleJoiningSlash` from `net/http/httputil`. -/
def singleJoiningSlash (a b : Str) : Str :=
  let aslash := goHasSuffix a ['/']
  let bslash := goHasPfx b ['/']
  if aslash && bslash then a ++ b.drop 1
  else if !aslash && !bslash then a ++ '/' :: b
  else a ++ b

/-- The stock `httputil.NewSingleHostReverseProxy` director: prefix the target
path (here `"/" ++ bucket`) onto the request path, rewrite scheme and host,
leave the query alone (the target URL has no query of its own). -/
def originalDirector (t : Target) (u : URL) : URL :=
  { scheme := t.scheme
    host := t.host
    path := singleJoiningSlash ('/' :: t.bucket) u.path
    query := u.query }

/-- Avatar/banner rewrite body (`main.go` lines 123-139 and 143-159, which are
textually identical up to the class name): read `format` from the query
(default `"webp"`), delete `format`, re-encode the query, and compose the
backend object path. -/
def rewriteImg (t : Target) (cls : Str) (u : URL) (userID hash : Str) : URL :=
  let fv := qGet u.query "format".data
  let format := if fv = [] then "webp".data else fv
  { scheme := t.scheme
    host := t.host
    path := "/".data ++ t.bucket ++ "/".data ++ cls ++ "/".data ++ userID
              ++ "/".data ++ hash ++ ".".data ++ format
    query := qSortQ (qDel u.query "format".data) }

/-- Song rewrite body (`main.go` lines 163-174): split the captured name into
hash and extension with `filepath.Ext`, compose the backend object path; the
query string is not touched. -/
def rewriteSong (t : Target) (u : URL) (userID hashWithExt : Str) : URL :=
  let ext := goExt hashWithExt
  let hsh := goTrimSuffix hashWithExt ext
  { scheme := t.scheme
    host := t.host
    path := "/".data ++ t.bucket ++ "/songs/".data ++ userID ++ "/".data ++ hsh ++ ext
    query := u.query }

/-- `proxy.Director` (`main.go` lines 119-178). Each recognized prefix is
tried in order; a matched prefix whose remainder does not split into exactly
two pieces falls through to the stock director, as does any other path. -/
def director (t : Target) (u : URL) : URL :=
  if goHasPfx u.path "/avatars/".data then
    match splitN2 (goTrimPfx u.path "/avatars/".data) with
    | [userID, hash] => rewriteImg t "avatars".data u userID hash
    | _ => originalDirector t u
  else if goHasPfx u.path "/banners/".data then
    match splitN2 (goTrimPfx u.path "/banners/".data) with
    | [userID, hash] => rewriteImg t "banners".data u userID hash
    | _ => originalDirector t u
  else if goHasPfx u.path "/songs/".data then
    match splitN2 (goTrimPfx u.path "/songs/".data) with
    | [userID, hashWithExt] => rewriteSong t u userID hashWithExt
    | _ => originalDirector t u
  else originalDirector t u

/-! ### Filename resolution (`getAudioFilename`, cache-aside) -/

/-- The JSON shape of a cached user profile (`UserProfile` in `main.go`). -/
structure UserProfile where
  id : Int
  bio : Str
  bannerHash : Str
  audioHash : Str
  audioMimeType : Str
  audioName : Str
deriving DecidableEq

/-- Outcome of `redisClient.Get(ctx, key).Result()`: a value, the
`redis.Nil` key-not-found error, or any other error. -/
inductive CacheGet where
  | val (s : Str)
  | nilErr
  | getErr (m : Str)
deriving DecidableEq

/-- Outcome of the durable-store query
`SELECT audio_name FROM user_profiles WHERE id = $1 AND audio_hash = $2`:
a matching row, `sql.ErrNoRows`, or any other query error. -/
inductive DbRow where
  | row (name : Str)
  | noRows
  | queryErr (m : Str)
deriving DecidableEq

/-- External collaborators, at their interface boundary: the Fast Cache read,
the `encoding/json` unmarshaller, and the Durable Store query. -/
structure Env where
  cacheGet : Str → CacheGet
  unmarshal : Str → Option UserProfile
  dbAudioName : Str → Str → DbRow

/-- A cache write the program could perform: key, value, TTL in seconds. -/
structure CacheWrite where
  key : Str
  value : Str
  ttlSeconds : Nat
deriving DecidableEq

/-- Observable outcome of one `getAudioFilename` call: the returned
`(string, error)` pair (as an `Except`), whether the Durable Store was
queried, the cache writes performed, and the log lines emitted. -/
structure ResolveOut where
  result : Except Str Str
  dbQueried : Bool
  cacheWrites : List CacheWrite
  logs : List Str

/-- The durable-store leg of `getAudioFilename` (`main.go` lines 56-66):
`Scan` yields the row's name, or the error is returned as `("", err)`. -/
def dbLookup (env : Env) (userID hash : Str) (logs : List Str) : ResolveOut :=
  match env.dbAudioName userID hash with
  | .row name => { result := .ok name, dbQueried := true, cacheWrites := [], logs := logs }
  | .noRows => { result := .error "sql: no rows in result set".data, dbQueried := true,
                 cacheWrites := [], logs := logs }
  | .queryErr m => { result := .error m, dbQueried := true, cacheWrites := [], logs := logs }

/-- `getAudioFilename` (`main.go` lines 41-67): consult the cached profile
under `user:profile:<userID>`; on a parse success with matching `audioHash`
and non-empty `audioName`, return it without touching the durable store; every
other cache outcome (miss, parse failure, hash mismatch, empty name, or a
non-`redis.Nil` error, which is additionally logged) falls through to the
durable store. No cache write is ever performed. -/
def getAudioFilename (env : Env) (userID hash : Str) : ResolveOut :=
  let key := "user:profile:".data ++ userID
  match env.cacheGet key with
  | .val s =>
    match env.unmarshal s with
    | some profile =>
      if profile.audioHash = hash ∧ profile.audioName ≠ [] then
        { result := .ok profile.audioName, dbQueried := false, cacheWrites := [], logs := [] }
      else dbLookup env userID hash []
    | none => dbLookup env userID hash []
  | .nilErr => dbLookup env userID hash []
  | .getErr m => dbLookup env userID hash ["valkey GET error: ".data ++ m]

/-- The cache-hit guard of `getAudioFilename` (`main.go` lines 44-51), as a
partial function: the `audioName` served from cache, when the cached profile
parses, matches the hash, and carries a non-empty name. -/
def cacheHitName (env : Env) (userID hash : Str) : Option Str :=
  match env.cacheGet ("user:profile:".data ++ userID) with
  | .val s =>
    match env.unmarshal s with
    | some profile =>
      if profile.audioHash = hash ∧ profile.audioName ≠ [] then some profile.audioName
      else none
    | none => none
  | _ => none

/-- Replay a list of cache writes into the environment (most recent wins), to
express what a *subsequent* resolution call observes. -/
def applyWrites (env : Env) (ws : List CacheWrite) : Env :=
  ws.foldl
    (fun e w =>
      { e with cacheGet := fun k => if k = w.key then .val w.value else e.cacheGet k })
    env

/-! ### The response transformer (`proxy.ModifyResponse`) -/

/-- Response headers: association list with map semantics for the canonical
keys the program uses. -/
abbrev Headers := List (Str × Str)

/-- `http.Header.Get` (first entry wins, `""` when absent). -/
def hGet : Headers → Str → Str
  | [], _ => []
  | (k', v) :: hs, k => if k' = k then v else hGet hs k

/-- Drop every entry with the key. -/
def hDel : Headers → Str → Headers
  | [], _ => []
  | (k', v) :: hs, k => if k' = k then hDel hs k else (k', v) :: hDel hs k

/-- `http.Header.Set`: replace all values of the key with the one given. -/
def hSet (hs : Headers) (k v : Str) : Headers :=
  (k, v) :: hDel hs k

/-- The slice of `http.Response` the transformer reads and writes. -/
structure Response where
  status : Nat
  headers : Headers
  body : Str
  contentLength : Int
deriving DecidableEq

/-- Scan for the nearest `closeT` occurrence reachable without crossing a
newline (RE2 `.` does not match `\n`); returns the remainder after it. -/
def findClose (closeT : Str) : Str → Option Str
  | [] => none
  | c :: rest =>
    if goHasPfx (c :: rest) closeT then some (List.drop closeT.length (c :: rest))
    else if c = '\n' then none
    else findClose closeT rest

/-- One regex `ReplaceAll` pass for the pattern `<nm>.*?</nm>` with an empty
replacement: scan left to right; where the opening tag starts a (shortest,
newline-free) match, drop through the matching closing tag and continue after
it; otherwise keep the character. Fuelled by the string length: every step
consumes at least one character, so the initial fuel always suffices. -/
def stripElemAux (nm : Str) : Nat → Str → Str
  | 0, s => s
  | _ + 1, [] => []
  | f + 1, c :: rest =>
    if goHasPfx (c :: rest) ('<' :: (nm ++ ['>'])) then
      match findClose ('<' :: '/' :: (nm ++ ['>'])) (List.drop (nm.length + 2) (c :: rest)) with
      | some s' => stripElemAux nm f s'
      | none => c :: stripElemAux nm f rest
    else c :: stripElemAux nm f rest

/-- `regexp.MustCompile("<nm>.*?</nm>").ReplaceAll(s, [])`. -/
def stripElem (nm : Str) (s : Str) : Str :=
  stripElemAux nm s.length s

/-- The three scrubbing passes of `main.go` lines 191-197, in their order. -/
def scrubXml (s : Str) : Str :=
  stripElem "Key".data (stripElem "Resource".data (stripElem "BucketName".data s))

/-- First block of `proxy.ModifyResponse` (`main.go` lines 181-202): when the
`Content-Type` contains `application/xml`, replace the body by its scrubbed
form and recompute `ContentLength` and the `Content-Length` header. -/
def xmlStage (resp : Response) : Response :=
  if goContains (hGet resp.headers "Content-Type".data) "application/xml".data then
    let clean := scrubXml resp.body
    { resp with
      body := clean
      contentLength := (clean.length : Int)
      headers := hSet resp.headers "Content-Length".data (natToStr clean.length) }
  else resp

/-- Second block of `proxy.ModifyResponse` (`main.go` lines 204-218): on a
rewritten songs path, re-extract userID and hash and set
`Content-Disposition` when resolution returns a nil error and a non-empty
name. -/
def songStage (bucket : Str) (env : Env) (reqPath : Str) (resp1 : Response) : Response :=
  if goHasPfx reqPath ("/".data ++ bucket ++ "/songs/".data) then
    match splitN2 (goTrimPfx reqPath ("/".data ++ bucket ++ "/songs/".data)) with
    | [userID, hashWithExt] =>
      let ext := goExt hashWithExt
      let hsh := goTrimSuffix hashWithExt ext
      match (getAudioFilename env userID hsh).result with
      | .ok name =>
        if name ≠ [] then
          { resp1 with
            headers := hSet resp1.headers "Content-Disposition".data
              ("inline; filename=\"".data ++ name ++ "\"".data) }
        else resp1
      | .error _ => resp1
    | _ => resp1
  else resp1

/-- `proxy.ModifyResponse` (`main.go` lines 180-221), pure core. `reqPath` is
`resp.Request.URL.Path`, i.e. the path *after* the Director rewrite. -/
def modifyRespCore (bucket : Str) (env : Env) (reqPath : Str) (resp : Response) : Response :=
  songStage bucket env reqPath (xmlStage resp)

/-- `proxy.ModifyResponse` with its error channel: the Go hook returns a
non-nil error only when reading the body fails, which has no counterpart on
pure data, so the model always returns `.ok`. -/
def modifyResponse (bucket : Str) (env : Env) (reqPath : Str) (resp : Response) :
    Except Unit Response :=
  .ok (modifyRespCore bucket env reqPath resp)

/-! ### Basic lemmas about the string primitives -/

theorem goHasPfx_append (p r : Str) : goHasPfx (p ++ r) p = true := by
  induction p with
  | nil => cases r <;> rfl
  | cons c cs ih => simp [goHasPfx, ih]

theorem goTrimPfx_append (p r : Str) : goTrimPfx (p ++ r) p = r := by
  simp [goTrimPfx, goHasPfx_append, List.drop_left]

theorem splitFirstSlash_append (a b : Str) (ha : '/' ∉ a) :
    splitFirstSlash (a ++ '/' :: b) = some (a, b) := by
  induction a with
  | nil => simp [splitFirstSlash]
  | cons c cs ih =>
    have hc : c ≠ '/' := fun h => ha (h ▸ List.mem_cons_self c cs)
    have hcs : '/' ∉ cs := fun h => ha (List.mem_cons_of_mem c h)
    simp [splitFirstSlash, hc, ih hcs]

theorem splitFirstSlash_none (s : Str) (hs : '/' ∉ s) : splitFirstSlash s = none := by
  induction s with
  | nil => rfl
  | cons c cs ih =>
    have hc : c ≠ '/' := fun h => hs (h ▸ List.mem_cons_self c cs)
    have hcs : '/' ∉ cs := fun h => hs (List.mem_cons_of_mem c h)
    simp [splitFirstSlash, hc, ih hcs]

theorem splitN2_append (a b : Str) (ha : '/' ∉ a) : splitN2 (a ++ '/' :: b) = [a, b] := by
  simp [splitN2, splitFirstSlash_append a b ha]

theorem splitN2_noSlash (s : Str) (hs : '/' ∉ s) : splitN2 s = [s] := by
  simp [splitN2, splitFirstSlash_none s hs]

theorem goExtAux_no_dot (l acc : Str) (hl : '.' ∉ l) : goExtAux l acc = [] := by
  induction l generalizing acc with
  | nil => rfl
  | cons c cs ih =>
    have hc : c ≠ '.' := fun h => hl (h ▸ List.mem_cons_self c cs)
    have hcs : '.' ∉ cs := fun h => hl (List.mem_cons_of_mem c h)
    by_cases hsl : c = '/'
    · simp [goExtAux, hsl]
    · simp [goExtAux, hsl, hc, ih _ hcs]

theorem goExt_no_dot (s : Str) (hs : '.' ∉ s) : goExt s = [] :=
  goExtAux_no_dot _ _ (by simpa using hs)

theorem goExtAux_append_dot (l t acc : Str) (hd : '.' ∉ l) (hs : '/' ∉ l) :
    goExtAux (l ++ '.' :: t) acc = '.' :: (l.reverse ++ acc) := by
  induction l generalizing acc with
  | nil => simp [goExtAux]
  | cons c cs ih =>
    have hc1 : c ≠ '.' := fun h => hd (h ▸ List.mem_cons_self c cs)
    have hc2 : c ≠ '/' := fun h => hs (h ▸ List.mem_cons_self c cs)
    have hcs1 : '.' ∉ cs := fun h => hd (List.mem_cons_of_mem c h)
    have hcs2 : '/' ∉ cs := fun h => hs (List.mem_cons_of_mem c h)
    simp [goExtAux, hc1, hc2, ih _ hcs1 hcs2]

theorem goExt_append (a e : Str) (hd : '.' ∉ e) (hs : '/' ∉ e) :
    goExt (a ++ '.' :: e) = '.' :: e := by
  have h1 : (a ++ '.' :: e).reverse = e.reverse ++ '.' :: a.reverse := by
    simp [List.reverse_append]
  rw [goExt, h1, goExtAux_append_dot _ _ _ (by simpa using hd) (by simpa using hs)]
  simp

theorem goHasSuffix_append (a b : Str) : goHasSuffix (a ++ b) b = true := by
  simp [goHasSuffix, List.reverse_append, goHasPfx_append]

theorem goTrimSuffix_append (a b : Str) : goTrimSuffix (a ++ b) b = a := by
  simp [goTrimSuffix, goHasSuffix_append, List.take_left']

theorem goTrimSuffix_nil (s : Str) : goTrimSuffix s [] = s := by
  have h : goHasSuffix s [] = true := by simp [goHasSuffix, goHasPfx]
  simp [goTrimSuffix, h]

/-! ### Lemmas about queries and headers -/

theorem qGet_of_absent (q : Query) (k : Str) (h : ∀ p ∈ q, p.1 ≠ k) : qGet q k = [] := by
  induction q with
  | nil => rfl
  | cons p ps ih =>
    have h1 : p.1 ≠ k := h p (List.mem_cons_self p ps)
    obtain ⟨k', v⟩ := p
    simp only [qGet, if_neg h1]
    exact ih fun p hp => h p (List.mem_cons_of_mem _ hp)

theorem mem_qDel (q : Query) (k : Str) (p : Str × Str) :
    p ∈ qDel q k ↔ p ∈ q ∧ p.1 ≠ k := by
  induction q with
  | nil => simp [qDel]
  | cons x xs ih =>
    obtain ⟨k', v⟩ := x
    simp only [qDel]
    by_cases hk : k' = k
    · rw [if_pos hk, ih]
      subst hk
      simp only [List.mem_cons]
      constructor
      · rintro ⟨h1, h2⟩; exact ⟨Or.inr h1, h2⟩
      · rintro ⟨h1 | h1, h2⟩
        · exact absurd (by rw [h1]) h2
        · exact ⟨h1, h2⟩
    · rw [if_neg hk]
      simp only [List.mem_cons, ih]
      constructor
      · rintro (rfl | ⟨h1, h2⟩)
        · exact ⟨Or.inl rfl, by simpa using hk⟩
        · exact ⟨Or.inr h1, h2⟩
      · rintro ⟨rfl | h1, h2⟩
        · exact Or.inl rfl
        · exact Or.inr ⟨h1, h2⟩

theorem qIns_perm (p : Str × Str) (l : Query) : List.Perm (qIns p l) (p :: l) := by
  induction l with
  | nil => exact List.Perm.refl _
  | cons x xs ih =>
    by_cases h : strLt p.1 x.1
    · simp [qIns, h]
    · simp only [qIns, if_neg h]
      exact (ih.cons x).trans (List.Perm.swap p x xs)

theorem qSortQ_perm (l : Query) : List.Perm (qSortQ l) l := by
  induction l with
  | nil => exact List.Perm.refl _
  | cons p ps ih => exact (qIns_perm p (qSortQ ps)).trans (ih.cons p)

theorem hGet_hDel_ne (hs : Headers) (k k' : Str) (h : k' ≠ k) :
    hGet (hDel hs k) k' = hGet hs k' := by
  induction hs with
  | nil => rfl
  | cons x xs ih =>
    obtain ⟨k₀, v⟩ := x
    simp only [hDel, hGet]
    by_cases h0 : k₀ = k
    · have hne : k₀ ≠ k' := fun hh => h (hh ▸ h0)
      rw [if_pos h0, ih, if_neg hne]
    · rw [if_neg h0]
      simp only [hGet]
      by_cases h1 : k₀ = k'
      · rw [if_pos h1, if_pos h1]
      · rw [if_neg h1, if_neg h1, ih]

theorem hGet_hSet_self (hs : Headers) (k v : Str) : hGet (hSet hs k v) k = v := by
  simp [hSet, hGet]

theorem hGet_hSet_ne (hs : Headers) (k v k' : Str) (h : k' ≠ k) :
    hGet (hSet hs k v) k' = hGet hs k' := by
  simp only [hSet, hGet]
  rw [if_neg (fun hh : k = k' => h hh.symm), hGet_hDel_ne hs k k' h]

/-! ### Director branch computations -/

theorem director_avatars_eq (t : Target) (sc ho userID hash : Str) (q : Query)
    (hu : '/' ∉ userID) :
    director t ⟨sc, ho, "/avatars/".data ++ (userID ++ '/' :: hash), q⟩ =
      rewriteImg t "avatars".data ⟨sc, ho, "/avatars/".data ++ (userID ++ '/' :: hash), q⟩
        userID hash := by
  have h1 : goHasPfx ("/avatars/".data ++ (userID ++ '/' :: hash)) "/avatars/".data = true :=
    goHasPfx_append _ _
  have h2 : goTrimPfx ("/avatars/".data ++ (userID ++ '/' :: hash)) "/avatars/".data =
      userID ++ '/' :: hash := goTrimPfx_append _ _
  simp only [director, h1, h2, splitN2_append _ _ hu, if_true]

theorem director_banners_eq (t : Target) (sc ho userID hash : Str) (q : Query)
    (hu : '/' ∉ userID) :
    director t ⟨sc, ho, "/banners/".data ++ (userID ++ '/' :: hash), q⟩ =
      rewriteImg t "banners".data ⟨sc, ho, "/banners/".data ++ (userID ++ '/' :: hash), q⟩
        userID hash := by
  have hA : goHasPfx ("/banners/".data ++ (userID ++ '/' :: hash)) "/avatars/".data = false := rfl
  have h1 : goHasPfx ("/banners/".data ++ (userID ++ '/' :: hash)) "/banners/".data = true :=
    goHasPfx_append _ _
  have h2 : goTrimPfx ("/banners/".data ++ (userID ++ '/' :: hash)) "/banners/".data =
      userID ++ '/' :: hash := goTrimPfx_append _ _
  simp only [director, hA, h1, h2, splitN2_append _ _ hu, Bool.false_eq_true, if_false,
    if_true]

theorem director_songs_eq (t : Target) (sc ho userID hashWithExt : Str) (q : Query)
    (hu : '/' ∉ userID) :
    director t ⟨sc, ho, "/songs/".data ++ (userID ++ '/' :: hashWithExt), q⟩ =
      rewriteSong t ⟨sc, ho, "/songs/".data ++ (userID ++ '/' :: hashWithExt), q⟩
        userID hashWithExt := by
  have hA : goHasPfx ("/songs/".data ++ (userID ++ '/' :: hashWithExt)) "/avatars/".data =
      false := rfl
  have hB : goHasPfx ("/songs/".data ++ (userID ++ '/' :: hashWithExt)) "/banners/".data =
      false := rfl
  have h1 : goHasPfx ("/songs/".data ++ (userID ++ '/' :: hashWithExt)) "/songs/".data = true :=
    goHasPfx_append _ _
  have h2 : goTrimPfx ("/songs/".data ++ (userID ++ '/' :: hashWithExt)) "/songs/".data =
      userID ++ '/' :: hashWithExt := goTrimPfx_append _ _
  simp only [director, hA, hB, h1, h2, splitN2_append _ _ hu, Bool.false_eq_true, if_false,
    if_true]

/-! ### Claim C5 -/

/-- C5: for every inbound request whose path matches `/songs/{userID}/{hashWithExt}`
where `hashWithExt` ends in `.{ext}`, the rewritten backend path is
`/{bucket}/songs/{userID}/{hash}.{ext}` with the extension preserved verbatim
and never defaulted, and the request's query string is left unmodified (the
whole rewritten URL, query included, is computed here; scheme and host go to
the backend's). -/
theorem c5_song_rewrite (t : Target) (sc ho userID hsh ext : Str) (q : Query)
    (hu : '/' ∉ userID) (hd : '.' ∉ ext) (hs : '/' ∉ ext) :
    director t ⟨sc, ho, "/songs/".data ++ (userID ++ '/' :: (hsh ++ '.' :: ext)), q⟩ =
      ⟨t.scheme, t.host,
        "/".data ++ t.bucket ++ "/songs/".data ++ userID ++ "/".data ++ hsh ++ '.' :: ext,
        q⟩ := by
  rw [director_songs_eq t sc ho userID _ q hu]
  simp only [rewriteSong, goExt_append hsh ext hd hs, goTrimSuffix_append]

/-- Witness for C5 at `/songs/42/abcdef.mp3` with a `format=png` query: the
backend path is `/b/songs/42/abcdef.mp3` and the query is untouched. -/
theorem c5_witness :
    ('/' ∉ "42".data ∧ '.' ∉ "mp3".data ∧ '/' ∉ "mp3".data) ∧
    director ⟨"http".data, "minio:9000".data, "b".data⟩
        ⟨"http".data, "client".data, "/songs/42/abcdef.mp3".data,
          [("format".data, "png".data)]⟩ =
      ⟨"http".data, "minio:9000".data, "/b/songs/42/abcdef.mp3".data,
        [("format".data, "png".data)]⟩ :=
  ⟨⟨by decide, by decide, by decide⟩,
    c5_song_rewrite ⟨"http".data, "minio:9000".data, "b".data⟩ "http".data "client".data
      "42".data "abcdef".data "mp3".data [("format".data, "png".data)]
      (by decide) (by decide) (by decide)⟩

/-! ### Claim C10 -/

/-- C10: for every matched song request whose second path part contains no
`'.'`, the extracted extension is empty, the hash is the whole part, and the
rewritten backend path is `/{bucket}/songs/{userID}/{part}` with no dot or
default extension appended (query untouched). -/
theorem c10_song_no_dot (t : Target) (sc ho userID part : Str) (q : Query)
    (hu : '/' ∉ userID) (hd : '.' ∉ part) :
    goExt part = [] ∧
    goTrimSuffix part (goExt part) = part ∧
    director t ⟨sc, ho, "/songs/".data ++ (userID ++ '/' :: part), q⟩ =
      ⟨t.scheme, t.host,
        "/".data ++ t.bucket ++ "/songs/".data ++ userID ++ "/".data ++ part, q⟩ := by
  refine ⟨goExt_no_dot part hd, ?_, ?_⟩
  · rw [goExt_no_dot part hd, goTrimSuffix_nil]
  · rw [director_songs_eq t sc ho userID part q hu]
    simp only [rewriteSong, goExt_no_dot part hd, goTrimSuffix_nil, List.append_nil]

/-- Witness for C10 at `/songs/42/noext`: rewritten to `/b/songs/42/noext`,
no dot appended. -/
theorem c10_witness :
    ('/' ∉ "42".data ∧ '.' ∉ "noext".data) ∧
    (goExt "noext".data = [] ∧
      goTrimSuffix "noext".data (goExt "noext".data) = "noext".data ∧
      director ⟨"http".data, "minio:9000".data, "b".data⟩
          ⟨"http".data, "client".data, "/songs/42/noext".data, []⟩ =
        ⟨"http".data, "minio:9000".data, "/b/songs/42/noext".data, []⟩) :=
  ⟨⟨by decide, by decide⟩,
    c10_song_no_dot ⟨"http".data, "minio:9000".data, "b".data⟩ "http".data "client".data
      "42".data "noext".data [] (by decide) (by decide)⟩

/-! ### Claim C6 -/

/-- C6 counterexample: the path `/avatars//h` has a recognized prefix whose
remainder `/h` splits into two parts with an *empty* `userID`; the claim says
such a request falls through to the passthrough rewrite, but the code only
checks that the split yields two parts, so it *is* rewritten as an ObjectKey
request (to `/b/avatars//h.webp`), not passed through (`/b/avatars//h`). -/
theorem c6_counterexample :
    (director ⟨"http".data, "minio:9000".data, "b".data⟩
        ⟨"http".data, "client".data, "/avatars//h".data, []⟩).path =
      "/b/avatars//h.webp".data ∧
    (originalDirector ⟨"http".data, "minio:9000".data, "b".data⟩
        ⟨"http".data, "client".data, "/avatars//h".data, []⟩).path =
      "/b/avatars//h".data ∧
    director ⟨"http".data, "minio:9000".data, "b".data⟩
        ⟨"http".data, "client".data, "/avatars//h".data, []⟩ ≠
      originalDirector ⟨"http".data, "minio:9000".data, "b".data⟩
        ⟨"http".data, "client".data, "/avatars//h".data, []⟩ := by
  refine ⟨rfl, rfl, ?_⟩
  decide

/-- C6 (amended): for every inbound request whose path begins with a
recognized prefix (`/avatars/`, `/banners/`, `/songs/`) but whose remainder
contains no `'/'` — so the split yields fewer than two parts — the request is
not rewritten as an ObjectKey request and falls through to the default
passthrough rewrite. (The code checks only the number of parts, not their
non-emptiness: a remainder containing `'/'` is always rewritten, even with an
empty userID or hash, as the counterexample shows.) -/
theorem c6_amended_fallthrough (t : Target) (sc ho pre rem : Str) (q : Query)
    (hpre : pre = "/avatars/".data ∨ pre = "/banners/".data ∨ pre = "/songs/".data)
    (hrem : '/' ∉ rem) :
    director t ⟨sc, ho, pre ++ rem, q⟩ = originalDirector t ⟨sc, ho, pre ++ rem, q⟩ := by
  have hsplit := splitN2_noSlash rem hrem
  rcases hpre with rfl | rfl | rfl
  · have h1 : goHasPfx ("/avatars/".data ++ rem) "/avatars/".data = true := goHasPfx_append _ _
    have h2 := goTrimPfx_append "/avatars/".data rem
    simp only [director, h1, h2, hsplit, if_true]
  · have hA : goHasPfx ("/banners/".data ++ rem) "/avatars/".data = false := rfl
    have h1 : goHasPfx ("/banners/".data ++ rem) "/banners/".data = true := goHasPfx_append _ _
    have h2 := goTrimPfx_append "/banners/".data rem
    simp only [director, hA, h1, h2, hsplit, Bool.false_eq_true, if_false, if_true]
  · have hA : goHasPfx ("/songs/".data ++ rem) "/avatars/".data = false := rfl
    have hB : goHasPfx ("/songs/".data ++ rem) "/banners/".data = false := rfl
    have h1 : goHasPfx ("/songs/".data ++ rem) "/songs/".data = true := goHasPfx_append _ _
    have h2 := goTrimPfx_append "/songs/".data rem
    simp only [director, hA, hB, h1, h2, hsplit, Bool.false_eq_true, if_false, if_true]

/-- Witness for the amended C6 at `/avatars/justonepart`: the request is
passed through with only the bucket prefixed. -/
theorem c6_witness :
    (("/avatars/".data = "/avatars/".data ∨ "/avatars/".data = "/banners/".data ∨
        "/avatars/".data = "/songs/".data) ∧ '/' ∉ "justonepart".data) ∧
    director ⟨"http".data, "minio:9000".data, "b".data⟩
        ⟨"http".data, "client".data, "/avatars/".data ++ "justonepart".data, []⟩ =
      originalDirector ⟨"http".data, "minio:9000".data, "b".data⟩
        ⟨"http".data, "client".data, "/avatars/".data ++ "justonepart".data, []⟩ :=
  ⟨⟨Or.inl rfl, by decide⟩,
    c6_amended_fallthrough ⟨"http".data, "minio:9000".data, "b".data⟩ "http".data
      "client".data "/avatars/".data "justonepart".data [] (Or.inl rfl) (by decide)⟩

/-- Shared computation for the two image classes: on a matched avatar or
banner path, the Director output is the corresponding `rewriteImg`. -/
theorem director_img_eq (t : Target) (sc ho cls userID hash : Str) (q : Query)
    (hcls : cls = "avatars".data ∨ cls = "banners".data) (hu : '/' ∉ userID) :
    director t ⟨sc, ho, "/".data ++ cls ++ "/".data ++ (userID ++ '/' :: hash), q⟩ =
      rewriteImg t cls ⟨sc, ho, "/".data ++ cls ++ "/".data ++ (userID ++ '/' :: hash), q⟩
        userID hash := by
  rcases hcls with rfl | rfl
  · rw [show ("/".data ++ "avatars".data ++ "/".data : Str) = "/avatars/".data from rfl]
    exact director_avatars_eq t sc ho userID hash q hu
  · rw [show ("/".data ++ "banners".data ++ "/".data : Str) = "/banners/".data from rfl]
    exact director_banners_eq t sc ho userID hash q hu

/-! ### Claim C1 -/

/-- C1: for every inbound request whose path matches `/avatars/{userID}/{hash}`
or `/banners/{userID}/{hash}`: with no `format` query parameter the rewritten
backend path is `/{bucket}/{avatars|banners}/{userID}/{hash}.webp`; with
`format=F` (a non-empty value) it ends in `.F`; and in both cases the `format`
parameter is absent from the forwarded query string. -/
theorem c1_img_format (t : Target) (sc ho cls userID hash : Str) (q : Query)
    (hcls : cls = "avatars".data ∨ cls = "banners".data) (hu : '/' ∉ userID) :
    ((∀ p ∈ q, p.1 ≠ "format".data) →
      (director t ⟨sc, ho, "/".data ++ cls ++ "/".data ++ (userID ++ '/' :: hash), q⟩).path =
        "/".data ++ t.bucket ++ "/".data ++ cls ++ "/".data ++ userID ++ "/".data ++ hash
          ++ ".".data ++ "webp".data) ∧
    (∀ F, qGet q "format".data = F → F ≠ [] →
      (director t ⟨sc, ho, "/".data ++ cls ++ "/".data ++ (userID ++ '/' :: hash), q⟩).path =
        "/".data ++ t.bucket ++ "/".data ++ cls ++ "/".data ++ userID ++ "/".data ++ hash
          ++ ".".data ++ F) ∧
    (∀ p ∈ (director t
        ⟨sc, ho, "/".data ++ cls ++ "/".data ++ (userID ++ '/' :: hash), q⟩).query,
      p.1 ≠ "format".data) := by
  rw [director_img_eq t sc ho cls userID hash q hcls hu]
  refine ⟨?_, ?_, ?_⟩
  · intro habs
    simp only [rewriteImg, qGet_of_absent q _ habs, if_true]
  · intro F hF hFne
    simp only [rewriteImg, hF, if_neg hFne]
  · intro p hp
    have hmem : p ∈ qDel q "format".data := by
      have := (qSortQ_perm (qDel q "format".data)).mem_iff (a := p)
      simp only [rewriteImg] at hp
      exact this.mp hp
    exact ((mem_qDel q "format".data p).mp hmem).2

/-- Witness for C1: both format branches and the format-stripping conjunct at
concrete inputs (`/avatars/7/h` with `?format=png&a=1` and with `?a=1`). -/
theorem c1_witness :
    (("avatars".data = "avatars".data ∨ "avatars".data = "banners".data) ∧
      '/' ∉ "7".data ∧
      (∀ p ∈ ([("a".data, "1".data)] : Query), p.1 ≠ "format".data) ∧
      qGet [("format".data, "png".data), ("a".data, "1".data)] "format".data = "png".data ∧
      "png".data ≠ ([] : Str)) ∧
    (director ⟨"http".data, "minio:9000".data, "b".data⟩
        ⟨"http".data, "client".data,
          "/".data ++ "avatars".data ++ "/".data ++ ("7".data ++ '/' :: "h".data),
          [("a".data, "1".data)]⟩).path =
      "/".data ++ "b".data ++ "/".data ++ "avatars".data ++ "/".data ++ "7".data ++ "/".data
        ++ "h".data ++ ".".data ++ "webp".data ∧
    (director ⟨"http".data, "minio:9000".data, "b".data⟩
        ⟨"http".data, "client".data,
          "/".data ++ "avatars".data ++ "/".data ++ ("7".data ++ '/' :: "h".data),
          [("format".data, "png".data), ("a".data, "1".data)]⟩).path =
      "/".data ++ "b".data ++ "/".data ++ "avatars".data ++ "/".data ++ "7".data ++ "/".data
        ++ "h".data ++ ".".data ++ "png".data :=
  ⟨⟨Or.inl rfl, by decide, by decide, by decide, by decide⟩,
    (c1_img_format ⟨"http".data, "minio:9000".data, "b".data⟩ "http".data "client".data
        "avatars".data "7".data "h".data [("a".data, "1".data)]
        (Or.inl rfl) (by decide)).1 (by decide),
    (c1_img_format ⟨"http".data, "minio:9000".data, "b".data⟩ "http".data "client".data
        "avatars".data "7".data "h".data [("format".data, "png".data), ("a".data, "1".data)]
        (Or.inl rfl) (by decide)).2.1 "png".data (by decide) (by decide)⟩

/-! ### Claim C9 -/

/-- C9: for every matched avatar or banner request, the forwarded query
contains exactly the original query's key/value pairs minus every `format`
parameter: as a multiset it is a permutation of the original with `format`
pairs deleted, and a pair belongs to it iff it belongs to the original and its
key is not `format` — nothing else is added, removed, or changed. -/
theorem c9_img_query_frame (t : Target) (sc ho cls userID hash : Str) (q : Query)
    (hcls : cls = "avatars".data ∨ cls = "banners".data) (hu : '/' ∉ userID) :
    List.Perm
      (director t ⟨sc, ho, "/".data ++ cls ++ "/".data ++ (userID ++ '/' :: hash), q⟩).query
      (qDel q "format".data) ∧
    (∀ p, p ∈ (director t
        ⟨sc, ho, "/".data ++ cls ++ "/".data ++ (userID ++ '/' :: hash), q⟩).query ↔
      p ∈ q ∧ p.1 ≠ "format".data) := by
  rw [director_img_eq t sc ho cls userID hash q hcls hu]
  simp only [rewriteImg]
  refine ⟨qSortQ_perm _, fun p => ?_⟩
  rw [(qSortQ_perm (qDel q "format".data)).mem_iff, mem_qDel]

/-- Witness for C9 at `/banners/7/h?format=png&a=1&format=gif`: the forwarded
query keeps exactly `a=1`. -/
theorem c9_witness :
    (("banners".data = "avatars".data ∨ "banners".data = "banners".data) ∧
      '/' ∉ "7".data) ∧
    List.Perm
      (director ⟨"http".data, "minio:9000".data, "b".data⟩
        ⟨"http".data, "client".data,
          "/".data ++ "banners".data ++ "/".data ++ ("7".data ++ '/' :: "h".data),
          [("format".data, "png".data), ("a".data, "1".data),
            ("format".data, "gif".data)]⟩).query
      (qDel [("format".data, "png".data), ("a".data, "1".data),
          ("format".data, "gif".data)] "format".data) ∧
    (("a".data, "1".data) ∈ (director ⟨"http".data, "minio:9000".data, "b".data⟩
        ⟨"http".data, "client".data,
          "/".data ++ "banners".data ++ "/".data ++ ("7".data ++ '/' :: "h".data),
          [("format".data, "png".data), ("a".data, "1".data),
            ("format".data, "gif".data)]⟩).query ↔
      ("a".data, "1".data) ∈ ([("format".data, "png".data), ("a".data, "1".data),
          ("format".data, "gif".data)] : Query) ∧
      ("a".data, "1".data).1 ≠ "format".data) :=
  ⟨⟨Or.inr rfl, by decide⟩,
    (c9_img_query_frame ⟨"http".data, "minio:9000".data, "b".data⟩ "http".data "client".data
        "banners".data "7".data "h".data
        [("format".data, "png".data), ("a".data, "1".data), ("format".data, "gif".data)]
        (Or.inr rfl) (by decide)).1,
    (c9_img_query_frame ⟨"http".data, "minio:9000".data, "b".data⟩ "http".data "client".data
        "banners".data "7".data "h".data
        [("format".data, "png".data), ("a".data, "1".data), ("format".data, "gif".data)]
        (Or.inr rfl) (by decide)).2 ("a".data, "1".data)⟩

/-! ### Resolver lemmas and claims C3, C4, C7 -/

theorem dbLookup_dbQueried (env : Env) (u h : Str) (logs : List Str) :
    (dbLookup env u h logs).dbQueried = true := by
  unfold dbLookup
  cases env.dbAudioName u h <;> rfl

theorem dbLookup_cacheWrites (env : Env) (u h : Str) (logs : List Str) :
    (dbLookup env u h logs).cacheWrites = [] := by
  unfold dbLookup
  cases env.dbAudioName u h <;> rfl

theorem dbLookup_logs (env : Env) (u h : Str) (logs : List Str) :
    (dbLookup env u h logs).logs = logs := by
  unfold dbLookup
  cases env.dbAudioName u h <;> rfl

theorem dbLookup_result_congr (env env' : Env) (u h : Str) (l l' : List Str)
    (hdb : env'.dbAudioName = env.dbAudioName) :
    (dbLookup env u h l).result = (dbLookup env' u h l').result := by
  unfold dbLookup
  rw [hdb]
  cases env.dbAudioName u h <;> rfl

/-- C3: for every (userID, hash), if the Fast Cache entry
`user:profile:<userID>` is present, parses into a profile whose `audioHash`
equals the hash and whose `audioName` is non-empty, then `getAudioFilename`
returns that `audioName` with no Durable Store access (and no cache write or
log); otherwise — cache miss, error, parse failure, hash mismatch or empty
name — the Durable Store is queried. -/
theorem c3_cache_hit_or_db (env : Env) (userID hash : Str) :
    (∀ s p, env.cacheGet ("user:profile:".data ++ userID) = .val s →
        env.unmarshal s = some p → p.audioHash = hash → p.audioName ≠ [] →
        getAudioFilename env userID hash =
          { result := .ok p.audioName, dbQueried := false, cacheWrites := [], logs := [] }) ∧
    (cacheHitName env userID hash = none →
      (getAudioFilename env userID hash).dbQueried = true) := by
  constructor
  · intro s p hs hp hh hn
    simp only [getAudioFilename, hs, hp]
    rw [if_pos (⟨hh, hn⟩ : p.audioHash = hash ∧ p.audioName ≠ [])]
  · intro hmiss
    cases hc : env.cacheGet ("user:profile:".data ++ userID) with
    | val s =>
      cases hum : env.unmarshal s with
      | some p =>
        by_cases hcond : p.audioHash = hash ∧ p.audioName ≠ []
        · exfalso
          simp only [cacheHitName, hc, hum] at hmiss
          rw [if_pos hcond] at hmiss
          exact Option.some_ne_none _ hmiss
        · simp only [getAudioFilename, hc, hum]
          rw [if_neg hcond]
          exact dbLookup_dbQueried env userID hash []
      | none =>
        simp only [getAudioFilename, hc, hum]
        exact dbLookup_dbQueried env userID hash []
    | nilErr =>
      simp only [getAudioFilename, hc]
      exact dbLookup_dbQueried env userID hash []
    | getErr m =>
      simp only [getAudioFilename, hc]
      exact dbLookup_dbQueried env userID hash _

/-- The cached profile used by the C3 witness. -/
def profHit : UserProfile :=
  { id := 42, bio := [], bannerHash := [], audioHash := "abcdef".data,
    audioMimeType := [], audioName := "Song Title.mp3".data }

/-- Environment for the C3 witness: profile cached for user 42, empty
durable store. -/
def envHit : Env :=
  { cacheGet := fun k => if k = "user:profile:42".data then .val "blob".data else .nilErr
    unmarshal := fun s => if s = "blob".data then some profHit else none
    dbAudioName := fun _ _ => .noRows }

/-- Witness for C3: user 42 with matching hash hits the cache and performs no
durable-store access; user 43 (no cached profile) queries the durable store. -/
theorem c3_witness :
    (envHit.cacheGet ("user:profile:".data ++ "42".data) = .val "blob".data ∧
      envHit.unmarshal "blob".data = some profHit ∧
      profHit.audioHash = "abcdef".data ∧ profHit.audioName ≠ [] ∧
      cacheHitName envHit "43".data "abcdef".data = none) ∧
    getAudioFilename envHit "42".data "abcdef".data =
      { result := .ok profHit.audioName, dbQueried := false, cacheWrites := [], logs := [] } ∧
    (getAudioFilename envHit "43".data "abcdef".data).dbQueried = true :=
  ⟨⟨by decide, by decide, by decide, by decide, by decide⟩,
    (c3_cache_hit_or_db envHit "42".data "abcdef".data).1 "blob".data profHit
      (by decide) (by decide) (by decide) (by decide),
    (c3_cache_hit_or_db envHit "43".data "abcdef".data).2 (by decide)⟩

/-- C4 counterexample: with an empty cache and a durable-store row
`audio_name = "Other Title.mp3"` for `(7, abcdef)`, resolution succeeds from
the durable store, yet the code performs *no* cache write at all — in
particular the secondary key `audio_name:7:abcdef` is not populated — and a
subsequent identical resolution call queries the Durable Store again instead
of hitting a cache. -/
def envC4 : Env :=
  { cacheGet := fun _ => .nilErr
    unmarshal := fun _ => none
    dbAudioName := fun u h =>
      if u = "7".data ∧ h = "abcdef".data then .row "Other Title.mp3".data else .noRows }

/-- The concrete refutation of C4 as stated (see `envC4`). -/
theorem c4_counterexample :
    (getAudioFilename envC4 "7".data "abcdef".data).result = .ok "Other Title.mp3".data ∧
    (getAudioFilename envC4 "7".data "abcdef".data).cacheWrites = [] ∧
    (getAudioFilename
        (applyWrites envC4 (getAudioFilename envC4 "7".data "abcdef".data).cacheWrites)
        "7".data "abcdef".data).dbQueried = true :=
  ⟨rfl, rfl, rfl⟩

/-- C4 (amended): after a successful Durable Store read the resolved name is
returned, but the code performs no cache write whatsoever — no secondary key
`audio_name:<userID>:<hash>` (or any other key) is populated — so a
subsequent identical resolution call observes the same environment and
produces the identical outcome, querying the Durable Store again rather than
being served from a repopulated cache. -/
theorem c4_amended_no_repopulation (env : Env) (userID hash : Str) :
    (getAudioFilename env userID hash).cacheWrites = [] ∧
    getAudioFilename (applyWrites env (getAudioFilename env userID hash).cacheWrites)
        userID hash = getAudioFilename env userID hash := by
  have hw : (getAudioFilename env userID hash).cacheWrites = [] := by
    cases hc : env.cacheGet ("user:profile:".data ++ userID) with
    | val s =>
      cases hum : env.unmarshal s with
      | some p =>
        by_cases hcond : p.audioHash = hash ∧ p.audioName ≠ []
        · simp only [getAudioFilename, hc, hum]
          rw [if_pos hcond]
        · simp only [getAudioFilename, hc, hum]
          rw [if_neg hcond]
          exact dbLookup_cacheWrites env userID hash []
      | none =>
        simp only [getAudioFilename, hc, hum]
        exact dbLookup_cacheWrites env userID hash []
    | nilErr =>
      simp only [getAudioFilename, hc]
      exact dbLookup_cacheWrites env userID hash []
    | getErr m =>
      simp only [getAudioFilename, hc]
      exact dbLookup_cacheWrites env userID hash _
  exact ⟨hw, by rw [hw]; rfl⟩

/-- C7: a Fast Cache read error other than key-not-found is logged and
treated exactly like a cache miss: the Durable Store is queried, and the
result equals what the same call would produce on a clean cache miss (the
cache error is never propagated). -/
theorem c7_cache_error_is_miss (env : Env) (userID hash m : Str)
    (hc : env.cacheGet ("user:profile:".data ++ userID) = .getErr m) :
    (getAudioFilename env userID hash).logs = ["valkey GET error: ".data ++ m] ∧
    (getAudioFilename env userID hash).dbQueried = true ∧
    (getAudioFilename env userID hash).result =
      (getAudioFilename { env with cacheGet := fun _ => .nilErr } userID hash).result := by
  simp only [getAudioFilename, hc]
  exact ⟨dbLookup_logs env userID hash _, dbLookup_dbQueried env userID hash _,
    dbLookup_result_congr env _ userID hash _ [] rfl⟩

/-- Environment for the C7 witness: the cache always fails with an error that
is not key-not-found; the durable store has the row. -/
def envErr : Env :=
  { cacheGet := fun _ => .getErr "connection refused".data
    unmarshal := fun _ => none
    dbAudioName := fun u h =>
      if u = "7".data ∧ h = "abcdef".data then .row "Other Title.mp3".data else .noRows }

/-- Witness for C7 at `(7, abcdef)` with a failing cache: the error is
logged, the durable store is queried, and the result matches the clean-miss
result. -/
theorem c7_witness :
    envErr.cacheGet ("user:profile:".data ++ "7".data) = .getErr "connection refused".data ∧
    ((getAudioFilename envErr "7".data "abcdef".data).logs =
        ["valkey GET error: ".data ++ "connection refused".data] ∧
      (getAudioFilename envErr "7".data "abcdef".data).dbQueried = true ∧
      (getAudioFilename envErr "7".data "abcdef".data).result =
        (getAudioFilename { envErr with cacheGet := fun _ => .nilErr }
            "7".data "abcdef".data).result) :=
  ⟨by decide,
    c7_cache_error_is_miss envErr "7".data "abcdef".data "connection refused".data
      (by decide)⟩

/-! ### Response transformer lemmas and claims C2, C8 -/

theorem songStage_body (b : Str) (e : Env) (p : Str) (r : Response) :
    (songStage b e p r).body = r.body := by
  unfold songStage
  repeat' first | split | dsimp only

theorem songStage_status (b : Str) (e : Env) (p : Str) (r : Response) :
    (songStage b e p r).status = r.status := by
  unfold songStage
  repeat' first | split | dsimp only

theorem songStage_contentLength (b : Str) (e : Env) (p : Str) (r : Response) :
    (songStage b e p r).contentLength = r.contentLength := by
  unfold songStage
  repeat' first | split | dsimp only

theorem songStage_hGet (b : Str) (e : Env) (p : Str) (r : Response) (k : Str)
    (hk : k ≠ "Content-Disposition".data) :
    hGet (songStage b e p r).headers k = hGet r.headers k := by
  unfold songStage
  repeat' first | split | dsimp only
  all_goals first
    | rfl
    | exact hGet_hSet_ne r.headers "Content-Disposition".data _ k hk

/-- C2: for every response whose `Content-Type` contains `application/xml`,
the transformed body equals the original body with every non-greedy
occurrence of `<BucketName>…</BucketName>`, `<Resource>…</Resource>` and
`<Key>…</Key>` removed, replaced in that sequence (`scrubXml`, the three
`ReplaceAll` passes in their source order), all other bytes preserved; the
`Content-Length` header and `ContentLength` equal the exact byte length of
the stripped body; and the hook reports no error. -/
theorem c2_xml_scrub (bucket : Str) (env : Env) (reqPath : Str) (resp : Response)
    (hxml : goContains (hGet resp.headers "Content-Type".data)
      "application/xml".data = true) :
    (modifyRespCore bucket env reqPath resp).body = scrubXml resp.body ∧
    hGet (modifyRespCore bucket env reqPath resp).headers "Content-Length".data =
      natToStr (scrubXml resp.body).length ∧
    (modifyRespCore bucket env reqPath resp).contentLength =
      ((scrubXml resp.body).length : Int) ∧
    modifyResponse bucket env reqPath resp = .ok (modifyRespCore bucket env reqPath resp) := by
  have hx : xmlStage resp =
      { resp with
        body := scrubXml resp.body
        contentLength := ((scrubXml resp.body).length : Int)
        headers := hSet resp.headers "Content-Length".data
          (natToStr (scrubXml resp.body).length) } := by
    unfold xmlStage
    rw [if_pos hxml]
  refine ⟨?_, ?_, ?_, rfl⟩
  · rw [modifyRespCore, songStage_body, hx]
  · rw [modifyRespCore, songStage_hGet _ _ _ _ _ (by decide), hx, hGet_hSet_self]
  · rw [modifyRespCore, songStage_contentLength, hx]

/-- Environment with an empty cache and an empty durable store (every
resolution fails with no-rows). -/
def envNone : Env :=
  { cacheGet := fun _ => .nilErr
    unmarshal := fun _ => none
    dbAudioName := fun _ _ => .noRows }

/-- XML error response used by the C2 witness. -/
def respC2 : Response :=
  { status := 404
    headers := [("Content-Type".data, "application/xml".data)]
    body := "<Error><BucketName>mybucket</BucketName>ok</Error>".data
    contentLength := 51 }

/-- Witness for C2: the `<BucketName>` element is removed from the concrete
body and the `Content-Length` header is the stripped byte length. -/
theorem c2_witness :
    (goContains (hGet respC2.headers "Content-Type".data) "application/xml".data = true ∧
      scrubXml respC2.body = "<Error>ok</Error>".data ∧
      natToStr (scrubXml respC2.body).length = "17".data) ∧
    ((modifyRespCore "b".data envNone "/b/other".data respC2).body = scrubXml respC2.body ∧
      hGet (modifyRespCore "b".data envNone "/b/other".data respC2).headers
          "Content-Length".data = natToStr (scrubXml respC2.body).length ∧
      (modifyRespCore "b".data envNone "/b/other".data respC2).contentLength =
        ((scrubXml respC2.body).length : Int) ∧
      modifyResponse "b".data envNone "/b/other".data respC2 =
        .ok (modifyRespCore "b".data envNone "/b/other".data respC2)) :=
  ⟨⟨by decide, by decide, by decide⟩,
    c2_xml_scrub "b".data envNone "/b/other".data respC2 (by decide)⟩

/-- XML song response used by the C8 counterexample. -/
def respC8 : Response :=
  { status := 404
    headers := [("Content-Type".data, "application/xml".data)]
    body := "<Error><Key>k</Key></Error>".data
    contentLength := 27 }

/-- C8 counterexample: a songs-path response whose resolution fails (no
durable-store row) is *not* returned with all other content unchanged when it
is an XML response: the independent scrub step rewrites its body and sets the
`Content-Length` header. (No `Content-Disposition` header is added, though.) -/
theorem c8_counterexample :
    (getAudioFilename envNone "7".data "x".data).result =
      .error "sql: no rows in result set".data ∧
    (modifyRespCore "b".data envNone "/b/songs/7/x.mp3".data respC8).body ≠ respC8.body ∧
    hGet (modifyRespCore "b".data envNone "/b/songs/7/x.mp3".data respC8).headers
        "Content-Length".data ≠ hGet respC8.headers "Content-Length".data ∧
    hGet (modifyRespCore "b".data envNone "/b/songs/7/x.mp3".data respC8).headers
        "Content-Disposition".data = [] := by
  exact ⟨rfl, by decide, by decide, rfl⟩

/-- C8 (amended): for every song response whose filename resolution fails or
yields an empty name, and whose content type does not contain
`application/xml` (so the independent scrub step does not touch it), the
response is returned to the client completely unchanged — status, headers,
body and length — in particular with no `Content-Disposition` header added,
and the resolution failure is never surfaced as an error of the hook. -/
theorem c8_resolution_failure_unchanged (bucket : Str) (env : Env) (userID rest : Str)
    (resp : Response) (hu : '/' ∉ userID)
    (hct : goContains (hGet resp.headers "Content-Type".data)
      "application/xml".data = false)
    (hres : ∀ n, (getAudioFilename env userID
        (goTrimSuffix rest (goExt rest))).result = .ok n → n = []) :
    modifyResponse bucket env
        (("/".data ++ bucket ++ "/songs/".data) ++ (userID ++ '/' :: rest)) resp =
      .ok resp := by
  have hx : xmlStage resp = resp := by
    simp only [xmlStage, hct, Bool.false_eq_true, if_false]
  have hpfx : goHasPfx (("/".data ++ bucket ++ "/songs/".data) ++ (userID ++ '/' :: rest))
      ("/".data ++ bucket ++ "/songs/".data) = true := goHasPfx_append _ _
  have htrim := goTrimPfx_append ("/".data ++ bucket ++ "/songs/".data)
    (userID ++ '/' :: rest)
  have hcore : modifyRespCore bucket env
      (("/".data ++ bucket ++ "/songs/".data) ++ (userID ++ '/' :: rest)) resp = resp := by
    rw [modifyRespCore, hx]
    simp only [songStage, hpfx, htrim, splitN2_append _ _ hu, if_true]
    cases hr : (getAudioFilename env userID (goTrimSuffix rest (goExt rest))).result with
    | ok name =>
      have hn : name = [] := hres name hr
      subst hn
      rfl
    | error e => rfl
  simp only [modifyResponse, hcore]

/-- Plain audio response used by the C8 witness. -/
def respPlain : Response :=
  { status := 200
    headers := [("Content-Type".data, "audio/mpeg".data)]
    body := "MP3DATA".data
    contentLength := 7 }

/-- Witness for the amended C8: with an empty durable store, the song
response comes back untouched and without a `Content-Disposition` header. -/
theorem c8_witness :
    ('/' ∉ "7".data ∧
      goContains (hGet respPlain.headers "Content-Type".data)
        "application/xml".data = false ∧
      (getAudioFilename envNone "7".data
          (goTrimSuffix "x.mp3".data (goExt "x.mp3".data))).result =
        .error "sql: no rows in result set".data) ∧
    modifyResponse "b".data envNone
        (("/".data ++ "b".data ++ "/songs/".data) ++ ("7".data ++ '/' :: "x.mp3".data))
        respPlain = .ok respPlain :=
  ⟨⟨by decide, by decide, rfl⟩,
    c8_resolution_failure_unchanged "b".data envNone "7".data "x.mp3".data respPlain
      (by decide) (by decide) (fun n h => nomatch h)⟩

end CdnProxy
